import Mathlib

/-!
# License-plate recognition core: shallow embedding and verification

This file embeds the frame-pipeline and session-deduplication engine of the
license-plate recognition bot (`src/detection/models.py`,
`src/detection/detector.py`) and proves/refutes the frozen specification
claims about it.

Modelling conventions:
* A frame is abstracted to what the Recognition Capability reports on it:
  a list of plate regions, each carrying its recognized character boxes
  (class id and x1 coordinate).  Pixel-level content (and hence rotation,
  which permutes pixels before detection) is below this abstraction.
* Python dictionaries mapping plate text to a count are embedded as total
  functions `String → Nat` with default 0 (`dict.get(p, 0)`); a "key" of the
  mapping is a string with non-zero count.
* Python `int` is embedded as `Int` (`Nat` where the source guarantees
  non-negativity), the probed float FPS as `ℚ`.
-/

namespace LPRBot

/-! ## Character alphabet and per-frame plate assembly
(`models.py` : `character_map`, `_detect_plates_in_frame`, `_is_valid_plate`) -/

/-- The fixed 36-symbol alphabet mapping character class ids to glyphs
(`models.py` lines 15-52): digits `0`-`9` then letters `A`-`Z`. -/
def character_map : List String :=
  ["0", "1", "2", "3", "4", "5", "6", "7", "8", "9",
   "A", "B", "C", "D", "E", "F", "G", "H", "I", "J", "K", "L", "M",
   "N", "O", "P", "Q", "R", "S", "T", "U", "V", "W", "X", "Y", "Z"]

/-- One character box returned by the character-glyph Recognition Capability
for a cropped plate region: its class id (a valid index into
`character_map`) and the box's `x1` coordinate (`map(int, char.xyxy[0])`). -/
structure CharBox where
  cls : Fin 36
  x1 : Int
deriving DecidableEq, Repr

/-- Stable insertion of a box into a list already sorted by `x1`: the new
box goes after every existing box whose `x1` is less than or equal to its
own, as Python's stable `list.sort(key=...)` keeps tied elements in input
order. -/
def insertByX (a : CharBox) : List CharBox → List CharBox
  | [] => [a]
  | b :: bs => if b.x1 ≤ a.x1 then b :: insertByX a bs else a :: b :: bs

/-- `detected_characters.sort(key=lambda char: char[1])` (`models.py` line
412): a stable sort by ascending `x1`, embedded as stable insertion sort. -/
def sortByX (boxes : List CharBox) : List CharBox :=
  boxes.foldl (fun acc a => insertByX a acc) []

/-- `_detect_plates_in_frame`, assembly stage (`models.py` lines 405-415):
record `(class_id, x1)` per character box, sort by `x1` ascending with
Python's stable `list.sort`, then map each class id through
`character_map` and concatenate. -/
def assembleRegion (boxes : List CharBox) : String :=
  String.join ((sortByX boxes).map (fun b => character_map.getD b.cls.val ""))

/-- `\d` of the plate regular expression, on the alphabet the assembler can
produce (ASCII digits). -/
def isDig (c : Char) : Bool := '0' ≤ c && c ≤ '9'

/-- `[A-Za-z]` of the plate regular expression. -/
def isAlp (c : Char) : Bool := ('A' ≤ c && c ≤ 'Z') || ('a' ≤ c && c ≤ 'z')

/-- Full match of a character string against a fixed-length shape given as a
list of per-character predicates. -/
def matchShape : List (Char → Bool) → List Char → Bool
  | [], [] => true
  | p :: ps, c :: cs => p c && matchShape ps cs
  | _, _ => false

/-- Shape `\d{2}[A-Za-z]\d{3}[A-Za-z]{2}` (old format, e.g. `01A123BC`). -/
def shapeOld : List (Char → Bool) :=
  [isDig, isDig, isAlp, isDig, isDig, isDig, isAlp, isAlp]

/-- Shape `[A-Za-z]\d{4}[A-Za-z]{2}` (new private/diplomatic, e.g. `A1234BC`). -/
def shapeNew : List (Char → Bool) :=
  [isAlp, isDig, isDig, isDig, isDig, isAlp, isAlp]

/-- Shape `[A-Za-z]{2}\d{4}[A-Za-z]{2}` (state, e.g. `AA1234BB`). -/
def shapeState : List (Char → Bool) :=
  [isAlp, isAlp, isDig, isDig, isDig, isDig, isAlp, isAlp]

/-- Shape `[A-Za-z]{2}\d{5}` (temporary, e.g. `TP12345`). -/
def shapeTmp : List (Char → Bool) :=
  [isAlp, isAlp, isDig, isDig, isDig, isDig, isDig]

/-- `_is_valid_plate` (`models.py` lines 64-95): `bool(plate_regex.fullmatch(s))`
where `plate_regex` is the alternation of the four shapes anchored at both
ends. -/
def is_valid_plate (s : String) : Bool :=
  matchShape shapeOld s.toList || matchShape shapeNew s.toList ||
  matchShape shapeState s.toList || matchShape shapeTmp s.toList

/-- A frame, abstracted to the Recognition Capability's output on it: the
detected plate regions, each with its character boxes. -/
abbrev Frame := List (List CharBox)

/-- `_detect_plates_in_frame` (`models.py` lines 361-431): every returned
plate-region box is processed (no confidence sorting), each is assembled to
a candidate string, and only candidates validated by `_is_valid_plate` are
kept, in region order. -/
def detect_plates_in_frame (frame : Frame) : List String :=
  (frame.map assembleRegion).filter (fun s => is_valid_plate s)

/-! ## File-mode session tracker (`models.py` : `detect_from_video`) -/

/-- The mutable state of the `detect_from_video` loop body, minus the frame
counter: `final_counts`, `current_session_plates`, `frames_without_plate`. -/
structure VideoState where
  final_counts : String → Nat
  current_session_plates : List String
  frames_without_plate : Nat

/-- Initial file-mode state (`models.py` lines 188-190). -/
def initVideoState : VideoState :=
  { final_counts := fun _ => 0, current_session_plates := [], frames_without_plate := 0 }

/-- The flush body (`models.py` lines 217-220):
`for plate in list(set(buf)): final_counts[plate] = final_counts.get(plate, 0) + 1`
— each distinct string of the buffer is credited exactly once, regardless of
its multiplicity and of the set's iteration order. -/
def flushCounts (counts : String → Nat) (buf : List String) : String → Nat :=
  fun p => if p ∈ buf then counts p + 1 else counts p

/-- Observation phase of one processed frame (`models.py` lines 204-208):
a non-empty observation resets `frames_without_plate` and extends the
session buffer; an empty one increments `frames_without_plate`. -/
def videoAbsorb (s : VideoState) (plates : List String) : VideoState :=
  if plates.isEmpty then
    { s with frames_without_plate := s.frames_without_plate + 1 }
  else
    { s with frames_without_plate := 0,
             current_session_plates := s.current_session_plates ++ plates }

/-- Timeout phase of one processed frame (`models.py` lines 211-225): if
`frames_without_plate >= session_timeout_frames` and the buffer is
non-empty, credit every distinct buffered string once and clear the buffer.
Note: the source does NOT reset `frames_without_plate` here. -/
def videoFlush (t : Nat) (s : VideoState) : VideoState :=
  if t ≤ s.frames_without_plate ∧ s.current_session_plates ≠ [] then
    { final_counts := flushCounts s.final_counts s.current_session_plates,
      current_session_plates := [],
      frames_without_plate := s.frames_without_plate }
  else s

/-- One processed frame of `detect_from_video`, given the frame's list of
valid plate strings. -/
def videoStep (t : Nat) (s : VideoState) (plates : List String) : VideoState :=
  videoFlush t (videoAbsorb s plates)

/-- End-of-video handling (`models.py` lines 228-237): a non-empty leftover
buffer is flushed unconditionally. -/
def videoFinalize (s : VideoState) : String → Nat :=
  if s.current_session_plates ≠ [] then
    flushCounts s.final_counts s.current_session_plates
  else s.final_counts

/-- File-mode run over the sequence of per-PROCESSED-frame observations
(the machine of spec §4.3, fed only the frames that survive the skip test). -/
def video_track (t : Nat) (obs : List (List String)) : VideoState :=
  obs.foldl (videoStep t) initVideoState

/-- Final counts of a file-mode run over processed-frame observations. -/
def video_counts (t : Nat) (obs : List (List String)) : String → Nat :=
  videoFinalize (video_track t obs)

/-- `detect_from_video` loop state including the frame counter
(`frame_count`, incremented on every read). -/
structure VideoLoopState where
  core : VideoState
  frame_count : Nat

/-- One read frame of `detect_from_video` (`models.py` lines 193-225):
`frame_count` is incremented on every read; the frame is run through
detection iff `frame_count % process_every_n_frames == 0`. -/
def videoLoopStep (t k : Nat) (s : VideoLoopState) (plates : List String) : VideoLoopState :=
  let fc := s.frame_count + 1
  if fc % k = 0 then { core := videoStep t s.core plates, frame_count := fc }
  else { core := s.core, frame_count := fc }

/-- `detect_from_video` (`models.py` lines 175-243), at the level of
per-read-frame recognition results: `t` is `session_timeout_frames`, `k` is
`process_every_n_frames`, `obs` lists each read frame's valid plate
strings. -/
def detect_from_video (t k : Nat) (obs : List (List String)) : String → Nat :=
  videoFinalize ((obs.foldl (videoLoopStep t k) { core := initVideoState, frame_count := 0 }).core)

/-- The full file-mode pipeline from raw frames: per-frame assembly and
grammar filtering feeding the session tracker.  Recognition is pure in this
embedding, so running it on skipped frames and discarding the result agrees
with the source's skip-before-detect ordering. -/
def video_pipeline (t k : Nat) (frames : List Frame) : String → Nat :=
  detect_from_video t k (frames.map detect_plates_in_frame)

/-! ## Stream-mode session tracker (`models.py` : `detect_from_camera`) -/

/-- The mutable state of the `detect_from_camera` loop body, minus the frame
counter: `final_counts` and the per-plate `active_sessions` map
(`some n` = tracked with absence counter `n`). -/
structure CameraState where
  final_counts : String → Nat
  active_sessions : String → Option Nat

/-- Initial stream-mode state (`models.py` lines 278-280). -/
def initCameraState : CameraState :=
  { final_counts := fun _ => 0, active_sessions := fun _ => none }

/-- Aging of one tracked entry that was not seen this frame (`models.py`
lines 325-338): the absence counter is incremented; on reaching the
timeout the entry is removed. -/
def ageEntry (t : Nat) : Option Nat → Option Nat
  | some n => if t ≤ n + 1 then none else some (n + 1)
  | none => none

/-- Count credited to a plate not seen this frame: one passage exactly when
its tracked entry reaches the timeout. -/
def ageCredit (t : Nat) (c : Nat) : Option Nat → Nat
  | some n => if t ≤ n + 1 then c + 1 else c
  | none => c

/-- One processed frame of `detect_from_camera` (`models.py` lines 315-338):
plates seen this frame get absence counter 0 (created if untracked); every
tracked plate not seen this frame has its counter incremented and, on
reaching `session_timeout_frames`, is credited one passage and removed. -/
def cameraStep (t : Nat) (s : CameraState) (plates : List String) : CameraState :=
  { final_counts := fun p =>
      if p ∈ plates then s.final_counts p
      else ageCredit t (s.final_counts p) (s.active_sessions p),
    active_sessions := fun p =>
      if p ∈ plates then some 0
      else ageEntry t (s.active_sessions p) }

/-- End-of-stream handling (`models.py` lines 347-352): every remaining
active session is credited one passage. -/
def cameraFinalize (s : CameraState) : String → Nat :=
  fun p => match s.active_sessions p with
    | some _ => s.final_counts p + 1
    | none => s.final_counts p

/-- `detect_from_camera` loop state including the frame counter. -/
structure CameraLoopState where
  core : CameraState
  frame_count : Nat

/-- One read frame of `detect_from_camera` (`models.py` lines 284-345):
`frame_count` is incremented on every read, and the frame is run through
detection iff `frame_count % process_every_n_frames == 0`. -/
def cameraLoopStep (t k : Nat) (s : CameraLoopState) (plates : List String) : CameraLoopState :=
  let fc := s.frame_count + 1
  if fc % k = 0 then { core := cameraStep t s.core plates, frame_count := fc }
  else { core := s.core, frame_count := fc }

/-- Stream-mode run truncated to a frame budget: the `while cap.isOpened()
and frame_count < total_frames` loop reads exactly `min obs.length budget`
frames. -/
def camera_track (t k budget : Nat) (obs : List (List String)) : CameraLoopState :=
  (obs.take budget).foldl (cameraLoopStep t k) { core := initCameraState, frame_count := 0 }

/-- Final counts of a budget-bounded stream-mode run over per-read-frame
observations. -/
def camera_run (t k budget : Nat) (obs : List (List String)) : String → Nat :=
  cameraFinalize (camera_track t k budget obs).core

/-- FPS substitution (`models.py` lines 268-270): a probed rate `≤ 0` or
`> 100` is replaced by the default 30. -/
def effective_fps (fps : ℚ) : ℚ :=
  if fps ≤ 0 ∨ 100 < fps then 30 else fps

/-- Frame budget (`models.py` line 272): `total_frames = int(fps * duration_seconds)`.
The product is non-negative, so Python's `int` truncation is the floor. -/
def total_frames (fps : ℚ) (duration_seconds : ℕ) : ℕ :=
  (Int.floor (effective_fps fps * duration_seconds)).toNat

/-- Number of frames `detect_from_camera` reads from a stream of `obs`
under a frame budget. -/
def frames_read (budget : ℕ) (obs : List (List String)) : ℕ :=
  (obs.take budget).length

/-- `detect_from_camera` (`models.py` lines 245-359) at the level of
per-read-frame recognition results, with the probed FPS and the configured
duration. -/
def detect_from_camera (t k : Nat) (fps : ℚ) (duration_seconds : ℕ)
    (obs : List (List String)) : String → Nat :=
  camera_run t k (total_frames fps duration_seconds) obs

/-- The full stream-mode pipeline from raw frames. -/
def camera_pipeline (t k budget : Nat) (frames : List Frame) : String → Nat :=
  camera_run t k budget (frames.map detect_plates_in_frame)

/-! ## Frame-skip characterization helpers -/

/-- The sublist of `obs` at the 1-based positions (counted from `start`)
whose index is divisible by `k` — the frames that survive the skip test. -/
def selectProcessed (k start : Nat) (obs : List α) : List α :=
  ((List.enumFrom start obs).filter (fun p => decide (p.1 % k = 0))).map Prod.snd

/-! ## Configuration setters
(`models.py` : `update_frame_skip` / `update_session_timeout`;
`detector.py` : `PlateDetectionService.update_frame_skip` /
`update_session_timeout`) -/

/-- `LicensePlateDetector.update_frame_skip` (`models.py` lines 155-159):
the value stored into `process_every_n_frames` — inputs `< 1` are silently
clamped to 1. -/
def update_frame_skip (v : Int) : Int :=
  if v < 1 then 1 else v

/-- `LicensePlateDetector.update_session_timeout` (`models.py` lines
161-165): the value stored into `session_timeout_frames` — inputs `< 1`
are silently clamped to 1. -/
def update_session_timeout (v : Int) : Int :=
  if v < 1 then 1 else v

/-- Outcome of a service-level setter: the reported `success` flag and the
detector value after the call. -/
structure SetterOutcome where
  success : Bool
  value : Int
deriving DecidableEq, Repr

/-- `PlateDetectionService.update_frame_skip` (`detector.py` lines 368-384):
an integer `< 1` is REJECTED with `success: False` and the detector value is
left untouched; otherwise the detector setter is invoked. -/
def service_update_frame_skip (current v : Int) : SetterOutcome :=
  if v < 1 then { success := false, value := current }
  else { success := true, value := update_frame_skip v }

/-- `PlateDetectionService.update_session_timeout` (`detector.py` lines
401-420): same structure as the frame-skip wrapper. -/
def service_update_session_timeout (current v : Int) : SetterOutcome :=
  if v < 1 then { success := false, value := current }
  else { success := true, value := update_session_timeout v }

/-! ## Fallible recognition and `process_video_file`
(`detector.py` lines 130-162, `storage_manager.py` `add_plate`) -/

/-- Is a per-frame recognition result an exception? -/
def isErr (r : Except String (List String)) : Bool :=
  match r with
  | .error _ => true
  | .ok _ => false

/-- One read frame of `detect_from_video` when recognition can raise: the
skip test happens before recognition, so only processed frames can abort
the run; an exception propagates out of the loop. -/
def videoLoopStepE (t k : Nat) (s : Except String VideoLoopState)
    (r : Except String (List String)) : Except String VideoLoopState :=
  match s with
  | .error e => .error e
  | .ok st =>
    let fc := st.frame_count + 1
    if fc % k = 0 then
      match r with
      | .error e => .error e
      | .ok plates => .ok { core := videoStep t st.core plates, frame_count := fc }
    else .ok { core := st.core, frame_count := fc }

/-- `detect_from_video` with a fallible Recognition Capability. -/
def detect_from_videoE (t k : Nat) (obs : List (Except String (List String))) :
    Except String (String → Nat) :=
  (obs.foldl (videoLoopStepE t k) (.ok { core := initVideoState, frame_count := 0 })).map
    (fun st => videoFinalize st.core)

/-- Outcome of `process_video_file`: the `success` flag, the returned
`plates` mapping, and the multiset of `add_plate` calls made on storage
(as plate → number of calls). -/
structure RunOutcome where
  success : Bool
  plates : String → Nat
  storage_adds : String → Nat

/-- `PlateDetectionService.process_video_file` (`detector.py` lines
130-162): on an exception from the detection run the `except` branch
returns `success: False` with empty `plates`, and the `add_plate` loop is
never reached; on success, each plate is added `count` times. -/
def process_video_file (t k : Nat) (obs : List (Except String (List String))) : RunOutcome :=
  match detect_from_videoE t k obs with
  | .error _ => { success := false, plates := fun _ => 0, storage_adds := fun _ => 0 }
  | .ok counts => { success := true, plates := counts, storage_adds := counts }

/-! ## Helper lemmas -/

/-- A block of frames all observing exactly the plate `P` resets the absence
counter and appends the observations to the session buffer, with no flush
(the timeout condition cannot fire at absence 0 when the timeout is ≥ 1). -/
theorem video_seen_block (t : Nat) (ht : 1 ≤ t) (P : String) :
    ∀ (n : Nat) (s : VideoState), 1 ≤ n →
      (List.replicate n [P]).foldl (videoStep t) s =
        { final_counts := s.final_counts,
          current_session_plates := s.current_session_plates ++ List.replicate n P,
          frames_without_plate := 0 } := by
  intro n
  induction n with
  | zero => intro s h; omega
  | succ m ih =>
    intro s _
    rw [List.replicate_succ, List.foldl_cons]
    have hstep : videoStep t s [P] =
        { final_counts := s.final_counts,
          current_session_plates := s.current_session_plates ++ [P],
          frames_without_plate := 0 } := by
      simp [videoStep, videoAbsorb, videoFlush]
      omega
    rw [hstep]
    rcases Nat.eq_zero_or_pos m with hm | hm
    · subst hm; simp
    · rw [ih _ hm]
      simp [List.replicate_succ]

/-- Empty observations on an empty session buffer only age the absence
counter: the flush guard requires a non-empty buffer. -/
theorem video_gap_empty_buffer (t : Nat) :
    ∀ (m : Nat) (s : VideoState), s.current_session_plates = [] →
      (List.replicate m []).foldl (videoStep t) s =
        { final_counts := s.final_counts,
          current_session_plates := [],
          frames_without_plate := s.frames_without_plate + m } := by
  intro m
  induction m with
  | zero => intro s h; simp [← h]
  | succ m ih =>
    intro s h
    rw [List.replicate_succ, List.foldl_cons]
    have hstep : videoStep t s [] =
        { final_counts := s.final_counts,
          current_session_plates := [],
          frames_without_plate := s.frames_without_plate + 1 } := by
      simp [videoStep, videoAbsorb, videoFlush, h]
    rw [hstep, ih _ rfl]
    simp
    omega

/-- A gap of empty observations long enough to reach the timeout flushes the
(non-empty) buffer exactly once; afterwards the absence counter keeps
aging (the source never resets it) and the buffer stays empty. -/
theorem video_gap_flush (t : Nat) :
    ∀ (m : Nat) (s : VideoState), s.current_session_plates ≠ [] →
      s.frames_without_plate < t → t ≤ s.frames_without_plate + m →
      (List.replicate m []).foldl (videoStep t) s =
        { final_counts := flushCounts s.final_counts s.current_session_plates,
          current_session_plates := [],
          frames_without_plate := s.frames_without_plate + m } := by
  intro m
  induction m with
  | zero => intro s hbuf hlt hle; omega
  | succ m ih =>
    intro s hbuf hlt hle
    rw [List.replicate_succ, List.foldl_cons]
    by_cases hfire : t ≤ s.frames_without_plate + 1
    · have hstep : videoStep t s [] =
          { final_counts := flushCounts s.final_counts s.current_session_plates,
            current_session_plates := [],
            frames_without_plate := s.frames_without_plate + 1 } := by
        simp only [videoStep, videoAbsorb, List.isEmpty_nil, if_pos rfl]
        simp [videoFlush, hfire, hbuf]
      rw [hstep, video_gap_empty_buffer t m _ rfl]
      simp
      omega
    · have hstep : videoStep t s [] =
          { final_counts := s.final_counts,
            current_session_plates := s.current_session_plates,
            frames_without_plate := s.frames_without_plate + 1 } := by
        simp only [videoStep, videoAbsorb, List.isEmpty_nil, if_pos rfl]
        simp [videoFlush, hfire]
      rw [hstep, ih ⟨s.final_counts, s.current_session_plates, s.frames_without_plate + 1⟩
        hbuf (by simp; omega) (by simp; omega)]
      simp
      omega

/-- A gap of empty observations too short to reach the timeout leaves the
state untouched except for the aging absence counter. -/
theorem video_gap_short (t : Nat) :
    ∀ (m : Nat) (s : VideoState), s.frames_without_plate + m < t →
      (List.replicate m []).foldl (videoStep t) s =
        { final_counts := s.final_counts,
          current_session_plates := s.current_session_plates,
          frames_without_plate := s.frames_without_plate + m } := by
  intro m
  induction m with
  | zero => intro s h; simp
  | succ m ih =>
    intro s h
    rw [List.replicate_succ, List.foldl_cons]
    have hstep : videoStep t s [] =
        { final_counts := s.final_counts,
          current_session_plates := s.current_session_plates,
          frames_without_plate := s.frames_without_plate + 1 } := by
      simp only [videoStep, videoAbsorb, List.isEmpty_nil, if_pos rfl]
      have : ¬ t ≤ s.frames_without_plate + 1 := by omega
      simp [videoFlush, this]
    rw [hstep, ih _ (by simp; omega)]
    simp
    omega

/-- A trailing gap after a session with a non-empty buffer contributes that
buffer's distinct plates exactly once to the final counts, whether the
timeout fires inside the gap or the end-of-video flush picks the buffer
up. -/
theorem video_trailing_gap (t : Nat) (ht : 1 ≤ t) (e : Nat) (s : VideoState)
    (hbuf : s.current_session_plates ≠ []) (hfw : s.frames_without_plate = 0) :
    videoFinalize ((List.replicate e []).foldl (videoStep t) s) =
      flushCounts s.final_counts s.current_session_plates := by
  by_cases he : t ≤ e
  · rw [video_gap_flush t e s hbuf (by omega) (by omega)]
    simp [videoFinalize]
  · rw [video_gap_short t e s (by omega)]
    simp [videoFinalize, hbuf]

/-- Every entry of the stream-mode active-sessions map keeps its absence
counter strictly below the timeout after any number of read frames: a seen
plate restarts at 0 (< t since t ≥ 1), an aging entry either stays below t
or is counted and removed in the same frame. -/
theorem cameraLoop_absence_lt (t k : Nat) (ht : 1 ≤ t) :
    ∀ (obs : List (List String)) (s : CameraLoopState),
      (∀ p n, s.core.active_sessions p = some n → n < t) →
      ∀ p n, (obs.foldl (cameraLoopStep t k) s).core.active_sessions p = some n → n < t := by
  intro obs
  induction obs with
  | nil => intro s hs p n h; exact hs p n h
  | cons plates rest ih =>
    intro s hs p n
    rw [List.foldl_cons]
    apply ih
    intro q m hq
    simp only [cameraLoopStep] at hq
    by_cases hk : (s.frame_count + 1) % k = 0
    · rw [if_pos hk] at hq
      simp only [cameraStep] at hq
      by_cases hmem : q ∈ plates
      · rw [if_pos hmem] at hq
        have : m = 0 := by injection hq; omega
        omega
      · rw [if_neg hmem] at hq
        cases hact : s.core.active_sessions q with
        | none => rw [hact] at hq; exact absurd hq (by simp [ageEntry])
        | some j =>
          rw [hact] at hq
          by_cases hfire : t ≤ j + 1
          · simp [ageEntry, hfire] at hq
          · simp [ageEntry, hfire] at hq
            omega
    · rw [if_neg hk] at hq
      exact hs q m hq

/-- The file-mode read loop is the processed-frame machine run on exactly
the frames whose 1-based index is divisible by the frame skip. -/
theorem videoLoop_selectProcessed (t k : Nat) :
    ∀ (obs : List (List String)) (s : VideoState) (fc : Nat),
      obs.foldl (videoLoopStep t k) ⟨s, fc⟩ =
        ⟨(selectProcessed k (fc + 1) obs).foldl (videoStep t) s, fc + obs.length⟩ := by
  intro obs
  induction obs with
  | nil => intro s fc; simp [selectProcessed]
  | cons a rest ih =>
    intro s fc
    rw [List.foldl_cons]
    by_cases hk : (fc + 1) % k = 0
    · have hsel : selectProcessed k (fc + 1) (a :: rest) = a :: selectProcessed k (fc + 2) rest := by
        simp [selectProcessed, List.enumFrom, hk]
      rw [hsel, List.foldl_cons]
      have hstep : videoLoopStep t k ⟨s, fc⟩ a = ⟨videoStep t s a, fc + 1⟩ := by
        simp [videoLoopStep, hk]
      rw [hstep, ih (videoStep t s a) (fc + 1)]
      simp
      omega
    · have hsel : selectProcessed k (fc + 1) (a :: rest) = selectProcessed k (fc + 2) rest := by
        simp [selectProcessed, List.enumFrom, hk]
      rw [hsel]
      have hstep : videoLoopStep t k ⟨s, fc⟩ a = ⟨s, fc + 1⟩ := by
        simp [videoLoopStep, hk]
      rw [hstep, ih s (fc + 1)]
      simp
      omega

/-- The stream-mode read loop is the processed-frame machine run on exactly
the frames whose 1-based index is divisible by the frame skip. -/
theorem cameraLoop_selectProcessed (t k : Nat) :
    ∀ (obs : List (List String)) (s : CameraState) (fc : Nat),
      obs.foldl (cameraLoopStep t k) ⟨s, fc⟩ =
        ⟨(selectProcessed k (fc + 1) obs).foldl (cameraStep t) s, fc + obs.length⟩ := by
  intro obs
  induction obs with
  | nil => intro s fc; simp [selectProcessed]
  | cons a rest ih =>
    intro s fc
    rw [List.foldl_cons]
    by_cases hk : (fc + 1) % k = 0
    · have hsel : selectProcessed k (fc + 1) (a :: rest) = a :: selectProcessed k (fc + 2) rest := by
        simp [selectProcessed, List.enumFrom, hk]
      rw [hsel, List.foldl_cons]
      have hstep : cameraLoopStep t k ⟨s, fc⟩ a = ⟨cameraStep t s a, fc + 1⟩ := by
        simp [cameraLoopStep, hk]
      rw [hstep, ih (cameraStep t s a) (fc + 1)]
      simp
      omega
    · have hsel : selectProcessed k (fc + 1) (a :: rest) = selectProcessed k (fc + 2) rest := by
        simp [selectProcessed, List.enumFrom, hk]
      rw [hsel]
      have hstep : cameraLoopStep t k ⟨s, fc⟩ a = ⟨s, fc + 1⟩ := by
        simp [cameraLoopStep, hk]
      rw [hstep, ih s (fc + 1)]
      simp
      omega

/-- The 1-based indices of the frames surviving the skip test are exactly
the multiples of the frame skip within the frame range. -/
theorem selectProcessed_indices (k : Nat) :
    ∀ (obs : List (List String)) (start : Nat),
      ((List.enumFrom start obs).filter (fun p => decide (p.1 % k = 0))).map Prod.fst =
        (List.range' start obs.length).filter (fun i => decide (i % k = 0)) := by
  intro obs
  induction obs with
  | nil => intro start; simp
  | cons a rest ih =>
    intro start
    rw [show List.enumFrom start (a :: rest) = (start, a) :: List.enumFrom (start + 1) rest from rfl]
    by_cases hk : start % k = 0
    · simp [List.length_cons, List.range'_succ, List.filter_cons, hk, ih (start + 1)]
    · simp [List.length_cons, List.range'_succ, List.filter_cons, hk, ih (start + 1)]

/-- The stream loop's frame counter counts exactly the frames it read. -/
theorem cameraLoop_frame_count (t k : Nat) :
    ∀ (obs : List (List String)) (s : CameraLoopState),
      (obs.foldl (cameraLoopStep t k) s).frame_count = s.frame_count + obs.length := by
  intro obs
  induction obs with
  | nil => intro s; simp
  | cons a rest ih =>
    intro s
    rw [List.foldl_cons]
    by_cases hk : (s.frame_count + 1) % k = 0 <;>
      simp [cameraLoopStep, hk, ih] <;> omega

/-- A recognition exception, once raised, propagates out of the rest of the
file-mode read loop. -/
theorem videoLoopE_error_absorb (t k : Nat) :
    ∀ (obs : List (Except String (List String))) (e : String),
      obs.foldl (videoLoopStepE t k) (.error e) = .error e := by
  intro obs
  induction obs with
  | nil => intro e; rfl
  | cons a rest ih => intro e; rw [List.foldl_cons]; exact ih e

/-- If any frame that survives the skip test carries a recognition
exception, the whole file-mode detection run aborts with an exception. -/
theorem videoLoopE_error_of_processed_error (t k : Nat) :
    ∀ (obs : List (Except String (List String))) (st : VideoLoopState),
      (selectProcessed k (st.frame_count + 1) obs).any isErr = true →
      ∃ e, obs.foldl (videoLoopStepE t k) (.ok st) = .error e := by
  intro obs
  induction obs with
  | nil => intro st h; simp [selectProcessed] at h
  | cons r rest ih =>
    intro st h
    rw [List.foldl_cons]
    by_cases hk : (st.frame_count + 1) % k = 0
    · have hsel : selectProcessed k (st.frame_count + 1) (r :: rest) =
          r :: selectProcessed k (st.frame_count + 2) rest := by
        simp [selectProcessed, List.enumFrom, hk]
      rw [hsel] at h
      cases r with
      | error e =>
        have hstep : videoLoopStepE t k (.ok st) (.error e) = .error e := by
          simp [videoLoopStepE, hk]
        rw [hstep, videoLoopE_error_absorb]
        exact ⟨e, rfl⟩
      | ok plates =>
        have hstep : videoLoopStepE t k (.ok st) (.ok plates) =
            .ok ⟨videoStep t st.core plates, st.frame_count + 1⟩ := by
          simp [videoLoopStepE, hk]
        rw [hstep]
        apply ih
        simp [isErr] at h
        simpa using h
    · have hsel : selectProcessed k (st.frame_count + 1) (r :: rest) =
          selectProcessed k (st.frame_count + 2) rest := by
        simp [selectProcessed, List.enumFrom, hk]
      rw [hsel] at h
      have hstep : videoLoopStepE t k (.ok st) r = .ok ⟨st.core, st.frame_count + 1⟩ := by
        simp [videoLoopStepE, hk]
      rw [hstep]
      apply ih
      simpa using h

/-- A flush only credits strings currently in the buffer, so validity of
counted keys follows from validity of counted keys so far and of the
buffer. -/
theorem flushCounts_valid {c : String → Nat} {buf : List String}
    (hc : ∀ p, c p ≠ 0 → is_valid_plate p = true)
    (hb : ∀ p ∈ buf, is_valid_plate p = true) :
    ∀ p, flushCounts c buf p ≠ 0 → is_valid_plate p = true := by
  intro p hp
  unfold flushCounts at hp
  by_cases hm : p ∈ buf
  · exact hb p hm
  · rw [if_neg hm] at hp
    exact hc p hp

/-- One file-mode step preserves "every counted key and every buffered
string is grammar-valid", provided the frame's observations are valid. -/
theorem videoStep_valid (t : Nat) (s : VideoState) (plates : List String)
    (hc : ∀ p, s.final_counts p ≠ 0 → is_valid_plate p = true)
    (hbuf : ∀ p ∈ s.current_session_plates, is_valid_plate p = true)
    (hin : ∀ p ∈ plates, is_valid_plate p = true) :
    (∀ p, (videoStep t s plates).final_counts p ≠ 0 → is_valid_plate p = true) ∧
    (∀ p ∈ (videoStep t s plates).current_session_plates, is_valid_plate p = true) := by
  have habs_c : ∀ p, (videoAbsorb s plates).final_counts p ≠ 0 → is_valid_plate p = true := by
    intro p
    unfold videoAbsorb
    by_cases he : plates.isEmpty <;> simp [he] <;> exact fun h => hc p h
  have habs_b : ∀ p ∈ (videoAbsorb s plates).current_session_plates,
      is_valid_plate p = true := by
    intro p hp
    unfold videoAbsorb at hp
    by_cases he : plates.isEmpty
    · rw [if_pos he] at hp
      exact hbuf p hp
    · rw [if_neg he] at hp
      simp only [List.mem_append] at hp
      rcases hp with h | h
      · exact hbuf p h
      · exact hin p h
  unfold videoStep videoFlush
  by_cases hcond : t ≤ (videoAbsorb s plates).frames_without_plate ∧
      (videoAbsorb s plates).current_session_plates ≠ []
  · rw [if_pos hcond]
    exact ⟨fun p hp => flushCounts_valid habs_c habs_b p hp, by simp⟩
  · rw [if_neg hcond]
    exact ⟨habs_c, habs_b⟩

/-- Validity invariant carried through the whole file-mode read loop. -/
theorem videoLoop_valid (t k : Nat) :
    ∀ (obs : List (List String)) (s : VideoLoopState),
      (∀ l ∈ obs, ∀ p ∈ l, is_valid_plate p = true) →
      (∀ p, s.core.final_counts p ≠ 0 → is_valid_plate p = true) →
      (∀ p ∈ s.core.current_session_plates, is_valid_plate p = true) →
      (∀ p, (obs.foldl (videoLoopStep t k) s).core.final_counts p ≠ 0 →
          is_valid_plate p = true) ∧
      (∀ p ∈ (obs.foldl (videoLoopStep t k) s).core.current_session_plates,
          is_valid_plate p = true) := by
  intro obs
  induction obs with
  | nil => intro s _ hc hbuf; exact ⟨hc, hbuf⟩
  | cons l rest ih =>
    intro s hobs hc hbuf
    rw [List.foldl_cons]
    have hl : ∀ p ∈ l, is_valid_plate p = true := hobs l (List.mem_cons_self l rest)
    have hrest : ∀ l' ∈ rest, ∀ p ∈ l', is_valid_plate p = true :=
      fun l' h => hobs l' (List.mem_cons_of_mem l h)
    unfold videoLoopStep
    by_cases hk : (s.frame_count + 1) % k = 0
    · rw [if_pos hk]
      obtain ⟨hc', hbuf'⟩ := videoStep_valid t s.core l hc hbuf hl
      exact ih _ hrest hc' hbuf'
    · rw [if_neg hk]
      exact ih _ hrest hc hbuf

/-- The end-of-video flush preserves validity of counted keys. -/
theorem videoFinalize_valid (s : VideoState)
    (hc : ∀ p, s.final_counts p ≠ 0 → is_valid_plate p = true)
    (hbuf : ∀ p ∈ s.current_session_plates, is_valid_plate p = true) :
    ∀ p, videoFinalize s p ≠ 0 → is_valid_plate p = true := by
  intro p hp
  unfold videoFinalize at hp
  by_cases hb : s.current_session_plates ≠ []
  · rw [if_pos hb] at hp
    exact flushCounts_valid hc hbuf p hp
  · rw [if_neg hb] at hp
    exact hc p hp

/-- One stream-mode step preserves "every counted key and every tracked
plate is grammar-valid", provided the frame's observations are valid. -/
theorem cameraStep_valid (t : Nat) (s : CameraState) (plates : List String)
    (hc : ∀ p, s.final_counts p ≠ 0 → is_valid_plate p = true)
    (ha : ∀ p, s.active_sessions p ≠ none → is_valid_plate p = true)
    (hin : ∀ p ∈ plates, is_valid_plate p = true) :
    (∀ p, (cameraStep t s plates).final_counts p ≠ 0 → is_valid_plate p = true) ∧
    (∀ p, (cameraStep t s plates).active_sessions p ≠ none → is_valid_plate p = true) := by
  constructor
  · intro p hp
    simp only [cameraStep] at hp
    by_cases hm : p ∈ plates
    · rw [if_pos hm] at hp
      exact hc p hp
    · rw [if_neg hm] at hp
      cases hact : s.active_sessions p with
      | none => rw [hact] at hp; simp [ageCredit] at hp; exact hc p hp
      | some n => exact ha p (by rw [hact]; simp)
  · intro p hp
    simp only [cameraStep] at hp
    by_cases hm : p ∈ plates
    · exact hin p hm
    · rw [if_neg hm] at hp
      cases hact : s.active_sessions p with
      | none => rw [hact] at hp; simp [ageEntry] at hp
      | some n => exact ha p (by rw [hact]; simp)

/-- Validity invariant carried through the whole stream-mode read loop. -/
theorem cameraLoop_valid (t k : Nat) :
    ∀ (obs : List (List String)) (s : CameraLoopState),
      (∀ l ∈ obs, ∀ p ∈ l, is_valid_plate p = true) →
      (∀ p, s.core.final_counts p ≠ 0 → is_valid_plate p = true) →
      (∀ p, s.core.active_sessions p ≠ none → is_valid_plate p = true) →
      (∀ p, (obs.foldl (cameraLoopStep t k) s).core.final_counts p ≠ 0 →
          is_valid_plate p = true) ∧
      (∀ p, (obs.foldl (cameraLoopStep t k) s).core.active_sessions p ≠ none →
          is_valid_plate p = true) := by
  intro obs
  induction obs with
  | nil => intro s _ hc ha; exact ⟨hc, ha⟩
  | cons l rest ih =>
    intro s hobs hc ha
    rw [List.foldl_cons]
    have hl : ∀ p ∈ l, is_valid_plate p = true := hobs l (List.mem_cons_self l rest)
    have hrest : ∀ l' ∈ rest, ∀ p ∈ l', is_valid_plate p = true :=
      fun l' h => hobs l' (List.mem_cons_of_mem l h)
    unfold cameraLoopStep
    by_cases hk : (s.frame_count + 1) % k = 0
    · rw [if_pos hk]
      obtain ⟨hc', ha'⟩ := cameraStep_valid t s.core l hc ha hl
      exact ih _ hrest hc' ha'
    · rw [if_neg hk]
      exact ih _ hrest hc ha

/-- The end-of-stream close-out preserves validity of counted keys. -/
theorem cameraFinalize_valid (s : CameraState)
    (hc : ∀ p, s.final_counts p ≠ 0 → is_valid_plate p = true)
    (ha : ∀ p, s.active_sessions p ≠ none → is_valid_plate p = true) :
    ∀ p, cameraFinalize s p ≠ 0 → is_valid_plate p = true := by
  intro p hp
  unfold cameraFinalize at hp
  cases hact : s.active_sessions p with
  | none => rw [hact] at hp; exact hc p hp
  | some n => exact ha p (by rw [hact]; simp)

/-- Every string produced by per-frame assembly-plus-validation is
grammar-valid. -/
theorem detect_plates_in_frame_valid (frame : Frame) :
    ∀ p ∈ detect_plates_in_frame frame, is_valid_plate p = true := by
  intro p hp
  unfold detect_plates_in_frame at hp
  exact (List.mem_filter.mp hp).2

/-- Inserting into a list is a permutation of consing. -/
theorem insertByX_perm (a : CharBox) : ∀ l : List CharBox, (insertByX a l).Perm (a :: l) := by
  intro l
  induction l with
  | nil => exact List.Perm.refl _
  | cons b bs ih =>
    unfold insertByX
    by_cases h : b.x1 ≤ a.x1
    · rw [if_pos h]
      exact (ih.cons b).trans (List.Perm.swap a b bs)
    · rw [if_neg h]

/-- The insertion-sort fold permutes its accumulator plus its input. -/
theorem sortByX_fold_perm :
    ∀ (l acc : List CharBox),
      (l.foldl (fun acc a => insertByX a acc) acc).Perm (acc ++ l) := by
  intro l
  induction l with
  | nil => intro acc; simp
  | cons a as ih =>
    intro acc
    rw [List.foldl_cons]
    refine (ih (insertByX a acc)).trans ?_
    refine (((insertByX_perm a acc).append_right as).trans ?_)
    exact List.perm_middle.symm

/-- `sortByX` permutes its input. -/
theorem sortByX_perm (l : List CharBox) : (sortByX l).Perm l := by
  simpa using sortByX_fold_perm l []

/-- Inserting into a sorted list keeps it sorted by `x1`. -/
theorem insertByX_sorted (a : CharBox) :
    ∀ l : List CharBox, l.Pairwise (fun x y => x.x1 ≤ y.x1) →
      (insertByX a l).Pairwise (fun x y => x.x1 ≤ y.x1) := by
  intro l
  induction l with
  | nil => intro _; simp [insertByX]
  | cons b bs ih =>
    intro h
    rw [List.pairwise_cons] at h
    obtain ⟨hb, hbs⟩ := h
    unfold insertByX
    by_cases hba : b.x1 ≤ a.x1
    · rw [if_pos hba]
      rw [List.pairwise_cons]
      refine ⟨?_, ih hbs⟩
      intro x hx
      rcases List.mem_cons.mp ((insertByX_perm a bs).mem_iff.mp hx) with rfl | hxbs
      · exact hba
      · exact hb x hxbs
    · rw [if_neg hba]
      rw [List.pairwise_cons]
      refine ⟨?_, ?_⟩
      · intro x hx
        rcases List.mem_cons.mp hx with rfl | hxbs
        · exact le_of_not_le hba
        · exact le_trans (le_of_not_le hba) (hb x hxbs)
      · rw [List.pairwise_cons]
        exact ⟨hb, hbs⟩

/-- The insertion-sort fold keeps the accumulator sorted by `x1`. -/
theorem sortByX_fold_sorted :
    ∀ (l acc : List CharBox), acc.Pairwise (fun x y => x.x1 ≤ y.x1) →
      (l.foldl (fun acc a => insertByX a acc) acc).Pairwise (fun x y => x.x1 ≤ y.x1) := by
  intro l
  induction l with
  | nil => intro acc h; exact h
  | cons a as ih =>
    intro acc h
    rw [List.foldl_cons]
    exact ih _ (insertByX_sorted a acc h)

/-- `sortByX` sorts ascending by `x1`. -/
theorem sortByX_sorted (l : List CharBox) :
    (sortByX l).Pairwise (fun x y => x.x1 ≤ y.x1) :=
  sortByX_fold_sorted l [] (by simp)

/-- When all `x1` coordinates are distinct, the sorted order is unique: any
two permuted inputs sort to the same list. -/
theorem sortByX_eq_of_perm (l₁ l₂ : List CharBox) (hperm : l₁.Perm l₂)
    (hdist : l₁.Pairwise (fun a b => a.x1 ≠ b.x1)) :
    sortByX l₁ = sortByX l₂ := by
  have h1 := sortByX_perm l₁
  have h2 := sortByX_perm l₂
  have hd1 : (sortByX l₁).Pairwise (fun a b => a.x1 ≠ b.x1) :=
    (h1.pairwise_iff (fun h => Ne.symm h)).mpr hdist
  have hd2 : (sortByX l₂).Pairwise (fun a b => a.x1 ≠ b.x1) :=
    ((h2.trans hperm.symm).pairwise_iff (fun h => Ne.symm h)).mpr hdist
  have hs1 : (sortByX l₁).Pairwise (fun a b => a.x1 < b.x1) :=
    ((sortByX_sorted l₁).and hd1).imp fun h => lt_of_le_of_ne h.1 h.2
  have hs2 : (sortByX l₂).Pairwise (fun a b => a.x1 < b.x1) :=
    ((sortByX_sorted l₂).and hd2).imp fun h => lt_of_le_of_ne h.1 h.2
  have hp : (sortByX l₁).Perm (sortByX l₂) := h1.trans (hperm.trans h2.symm)
  haveI : IsAntisymm CharBox (fun a b => a.x1 < b.x1) :=
    ⟨fun a b h h' => absurd (lt_trans h h') (lt_irrefl _)⟩
  exact List.eq_of_perm_of_sorted hp hs1 hs2

/-! ## Claims -/

/-- C1: File mode — a plate `P` observed for `a ≥ 1` processed frames, then
absent for `g ≥ session_timeout_frames` processed frames, then observed
again for `b ≥ 1` processed frames (with an arbitrary trailing gap `e`),
yields a final mapping sending `P` to exactly 2 and everything else to 0;
in particular, `detect_from_video` with `session_timeout_frames = 1` and
`frame_skip = 1` on `[[X], [], [X], []]` returns exactly the mapping
`X ↦ 2`. -/
theorem C1_file_mode_gap_counts_twice (P : String) (t a g b e : Nat)
    (ht : 1 ≤ t) (ha : 1 ≤ a) (hg : t ≤ g) (hb : 1 ≤ b) :
    video_counts t (List.replicate a [P] ++ List.replicate g [] ++
        List.replicate b [P] ++ List.replicate e []) =
      (fun Q => if Q = P then 2 else 0) ∧
    detect_from_video 1 1 [["X"], [], ["X"], []] =
      (fun Q => if Q = "X" then 2 else 0) := by
  constructor
  · unfold video_counts video_track
    rw [List.foldl_append, List.foldl_append, List.foldl_append]
    rw [video_seen_block t ht P a initVideoState ha]
    have ha0 : a ≠ 0 := by omega
    have hb0 : b ≠ 0 := by omega
    have hrepa : (List.replicate a P : List String) ≠ [] := by
      simp [List.replicate_eq_nil_iff, ha0]
    have hrepb : (List.replicate b P : List String) ≠ [] := by
      simp [List.replicate_eq_nil_iff, hb0]
    rw [video_gap_flush t g ⟨initVideoState.final_counts,
        initVideoState.current_session_plates ++ List.replicate a P, 0⟩
      (by simpa [initVideoState] using hrepa) (by simpa using ht) (by simp; omega)]
    rw [video_seen_block t ht P b _ hb]
    rw [video_trailing_gap t ht e _ (by simpa [initVideoState] using hrepb) rfl]
    funext Q
    by_cases hQ : Q = P
    · subst hQ
      simp [flushCounts, List.mem_replicate, ha0, hb0, initVideoState]
    · simp [flushCounts, List.mem_replicate, hQ, initVideoState]
  · funext Q
    by_cases hQ : Q = "X"
    · subst hQ; decide
    · simp only [hQ, if_false]
      simp [detect_from_video, videoLoopStep, videoStep, videoAbsorb, videoFlush,
        videoFinalize, flushCounts, initVideoState, hQ]

/-- Witness for C1 at `P = "X"`, `t = a = g = b = e = 1`. -/
theorem C1_file_mode_gap_counts_twice_witness :
    video_counts 1 (List.replicate 1 ["X"] ++ List.replicate 1 [] ++
        List.replicate 1 ["X"] ++ List.replicate 1 []) =
      (fun Q => if Q = "X" then 2 else 0) :=
  (C1_file_mode_gap_counts_twice "X" 1 1 1 1 1 (by decide) (by decide) (by decide)
    (by decide)).1

/-- C2: the file-mode and stream-mode dedup state machines are not
equivalent — there is an observation sequence (same timeout, same frame
skip, frame budget covering the whole sequence) on which
`detect_from_video` and the stream-mode run return different mappings.
With timeout 1, on `[[A], [B], [A]]` file mode keeps one shared session
alive (every frame sees some plate, so the shared absence counter never
reaches the timeout) and counts `A` once, while stream mode times `A` out
during the `[B]` frame and counts `A` twice. -/
theorem C2_modes_not_equivalent :
    ∃ (t k b : Nat) (obs : List (List String)),
      1 ≤ t ∧ 1 ≤ k ∧ obs.length ≤ b ∧
      detect_from_video t k obs ≠ camera_run t k b obs :=
  ⟨1, 1, 3, [["A"], ["B"], ["A"]], by decide, by decide, by decide,
    fun h => absurd (congrFun h "A") (by decide)⟩

/-- C3 counterexample: with timeout 1, after `[[A], []]` a flush has
happened on the second processed frame (the passage for `A` is counted
and the buffer is cleared), yet `frames_without_plate` is 1, not 0 — the
source never resets the absence counter at a flush. -/
theorem C3_flush_counterexample :
    (video_track 1 [["A"], []]).final_counts "A" = 1 ∧
    (video_track 1 [["A"], []]).current_session_plates = [] ∧
    (video_track 1 [["A"], []]).frames_without_plate ≠ 0 := by
  refine ⟨by decide, by decide, by decide⟩

/-- C3 amended: on every processed frame on which, after the observation
update, `frames_without_plate ≥ session_timeout_frames` and the buffer is
non-empty, the flush credits exactly one passage per distinct buffered
string (`flushCounts`) and clears the buffer — but leaves
`frames_without_plate` unchanged rather than resetting it to 0. -/
theorem C3_flush_behavior (t : Nat) (s : VideoState) (plates : List String)
    (hfw : t ≤ (videoAbsorb s plates).frames_without_plate)
    (hbuf : (videoAbsorb s plates).current_session_plates ≠ []) :
    videoStep t s plates =
      { final_counts := flushCounts (videoAbsorb s plates).final_counts
          (videoAbsorb s plates).current_session_plates,
        current_session_plates := [],
        frames_without_plate := (videoAbsorb s plates).frames_without_plate } := by
  simp only [videoStep, videoFlush]
  rw [if_pos ⟨hfw, hbuf⟩]

/-- Witness for C3 amended at `t = 1`, buffer `[A]`, empty observation. -/
theorem C3_flush_behavior_witness :
    1 ≤ (videoAbsorb ⟨fun _ => 0, ["A"], 0⟩ []).frames_without_plate ∧
    (videoAbsorb ⟨fun _ => 0, ["A"], 0⟩ []).current_session_plates ≠ [] ∧
    videoStep 1 ⟨fun _ => 0, ["A"], 0⟩ [] =
      { final_counts := flushCounts (videoAbsorb ⟨fun _ => 0, ["A"], 0⟩ []).final_counts
          (videoAbsorb ⟨fun _ => 0, ["A"], 0⟩ []).current_session_plates,
        current_session_plates := [],
        frames_without_plate := (videoAbsorb ⟨fun _ => 0, ["A"], 0⟩ []).frames_without_plate } :=
  ⟨by decide, by decide, C3_flush_behavior 1 ⟨fun _ => 0, ["A"], 0⟩ [] (by decide) (by decide)⟩

/-- C4 counterexample: the service-level setters (`detector.py`) do NOT
accept values `< 1` — `update_frame_skip(0)` is rejected with
`success: False` and the stored value is left untouched (7 stays 7), and
likewise for `update_session_timeout(0)`. -/
theorem C4_setter_counterexample :
    service_update_frame_skip 7 0 = { success := false, value := 7 } ∧
    service_update_session_timeout 5 0 = { success := false, value := 5 } := by
  refine ⟨by decide, by decide⟩

/-- C4 amended: for every integer `v < 1` the detector-level setters
(`models.py`) silently clamp `v` to 1, while the service-level wrappers
(`detector.py`) reject `v` with `success: False` and leave the current
value unchanged (so the clamp is unreachable through the service
surface). -/
theorem C4_setters_clamp_vs_reject (v cur : Int) (hv : v < 1) :
    update_frame_skip v = 1 ∧ update_session_timeout v = 1 ∧
    service_update_frame_skip cur v = { success := false, value := cur } ∧
    service_update_session_timeout cur v = { success := false, value := cur } := by
  simp [update_frame_skip, update_session_timeout, service_update_frame_skip,
    service_update_session_timeout, hv]

/-- Witness for C4 amended at `v = 0`, current value 7. -/
theorem C4_setters_clamp_vs_reject_witness :
    (0 : Int) < 1 ∧ update_frame_skip 0 = 1 ∧ update_session_timeout 0 = 1 ∧
    service_update_frame_skip 7 0 = { success := false, value := 7 } ∧
    service_update_session_timeout 7 0 = { success := false, value := 7 } :=
  ⟨by decide, C4_setters_clamp_vs_reject 0 7 (by decide)⟩

/-- C10: after any number of read frames of a stream-mode run (any timeout
`t ≥ 1`, any frame skip, any budget — so in particular at the end of every
processed frame, since every prefix of the input is itself a run), every
plate still present in `active_sessions` has an absence counter strictly
below `session_timeout_frames`: an entry reaching the timeout is counted
and removed within the same frame step. -/
theorem C10_active_sessions_below_timeout (t k b : Nat) (ht : 1 ≤ t)
    (obs : List (List String)) (p : String) (n : Nat)
    (h : (camera_track t k b obs).core.active_sessions p = some n) : n < t :=
  cameraLoop_absence_lt t k ht (obs.take b)
    { core := initCameraState, frame_count := 0 }
    (fun _ _ hq => absurd hq (by simp [initCameraState])) p n h

/-- Witness for C10: with `t = 2`, after one frame seeing `A` the session
for `A` is active with counter 0, and 0 < 2. -/
theorem C10_active_sessions_below_timeout_witness :
    (camera_track 2 1 1 [["A"]]).core.active_sessions "A" = some 0 ∧ 0 < 2 :=
  ⟨by decide, C10_active_sessions_below_timeout 2 1 1 (by decide) [["A"]] "A" 0 (by decide)⟩

/-- C7: for every frame skip `k ≥ 1`, in both modes, the frames run through
detection are exactly those whose 1-based read index is divisible by `k`:
the indices surviving the skip test are exactly the multiples of `k` in the
frame range, and each mode's read loop equals the session machine folded
over exactly the surviving frames. -/
theorem C7_frame_skip_select (t k b : Nat) (_hk : 1 ≤ k) (obs : List (List String)) :
    ((List.enumFrom 1 obs).filter (fun p => decide (p.1 % k = 0))).map Prod.fst =
      (List.range' 1 obs.length).filter (fun i => decide (i % k = 0)) ∧
    detect_from_video t k obs =
      videoFinalize ((selectProcessed k 1 obs).foldl (videoStep t) initVideoState) ∧
    camera_run t k b obs =
      cameraFinalize ((selectProcessed k 1 (obs.take b)).foldl (cameraStep t) initCameraState) := by
  refine ⟨selectProcessed_indices k obs 1, ?_, ?_⟩
  · unfold detect_from_video
    rw [show ({ core := initVideoState, frame_count := 0 } : VideoLoopState) =
      ⟨initVideoState, 0⟩ from rfl]
    rw [videoLoop_selectProcessed t k obs initVideoState 0]
  · unfold camera_run camera_track
    rw [show ({ core := initCameraState, frame_count := 0 } : CameraLoopState) =
      ⟨initCameraState, 0⟩ from rfl]
    rw [cameraLoop_selectProcessed t k (obs.take b) initCameraState 0]

/-- Witness for C7 at `k = 2` over three frames: the processed index set is
exactly the multiples of 2 in the range, namely the single index 2. -/
theorem C7_frame_skip_select_witness :
    1 ≤ 2 ∧
    ((List.enumFrom 1 [["A"], ["B"], ["C"]]).filter (fun p => decide (p.1 % 2 = 0))).map Prod.fst =
      (List.range' 1 3).filter (fun i => decide (i % 2 = 0)) :=
  ⟨by decide, (C7_frame_skip_select 1 2 5 (by decide) [["A"], ["B"], ["C"]]).1⟩

/-- C6: the stream-mode frame budget is `⌊fps × duration⌋` with the probed
rate used when it lies in `(0, 100]` and 30 substituted otherwise, the
loop's frame counter (= frames read, hence processed) never exceeds the
budget, and with fps 30 and duration 10 the budget is exactly 300. -/
theorem C6_frame_budget (t k : Nat) (fps : ℚ) (d : ℕ) (obs : List (List String)) :
    (0 < fps → fps ≤ 100 → total_frames fps d = (Int.floor (fps * d)).toNat) ∧
    (fps ≤ 0 ∨ 100 < fps → total_frames fps d = 30 * d) ∧
    (camera_track t k (total_frames fps d) obs).frame_count ≤ total_frames fps d ∧
    frames_read (total_frames fps d) obs ≤ total_frames fps d ∧
    total_frames 30 10 = 300 := by
  refine ⟨?_, ?_, ?_, ?_, ?_⟩
  · intro h0 h100
    have : ¬ (fps ≤ 0 ∨ 100 < fps) := by
      push_neg
      exact ⟨by linarith, by linarith⟩
    rw [total_frames, effective_fps, if_neg this]
  · intro h
    rw [total_frames, effective_fps, if_pos h]
    rw [show ((30 : ℚ) * d) = ((30 * d : ℕ) : ℚ) by push_cast; ring]
    rw [Int.floor_natCast]
    exact Int.toNat_natCast _
  · rw [camera_track, cameraLoop_frame_count]
    simp [frames_read]
  · simp [frames_read]
  · norm_num [total_frames, effective_fps]
    decide

/-- Witness for C6 at fps 30, duration 10, a two-frame stream. -/
theorem C6_frame_budget_witness :
    (0 : ℚ) < 30 ∧ (30 : ℚ) ≤ 100 ∧
    total_frames 30 10 = (Int.floor ((30 : ℚ) * (10 : ℕ))).toNat ∧
    total_frames 30 10 = 300 :=
  ⟨by norm_num, by norm_num,
    (C6_frame_budget 1 1 30 10 [[], []]).1 (by norm_num) (by norm_num),
    (C6_frame_budget 1 1 30 10 [[], []]).2.2.2.2⟩

/-- C9: if any frame that survives the skip test carries a recognition
exception, `process_video_file` reports failure with an empty plates
mapping and performs no `add_plate` calls — no partial counts reach
storage. -/
theorem C9_recognition_error_aborts (t k : Nat)
    (obs : List (Except String (List String)))
    (h : (selectProcessed k 1 obs).any isErr = true) :
    process_video_file t k obs =
      { success := false, plates := fun _ => 0, storage_adds := fun _ => 0 } := by
  obtain ⟨e, he⟩ := videoLoopE_error_of_processed_error t k obs
    { core := initVideoState, frame_count := 0 } (by simpa using h)
  simp [process_video_file, detect_from_videoE, he, Except.map]

/-- Witness for C9: a single processed frame whose recognition raises. -/
theorem C9_recognition_error_aborts_witness :
    (selectProcessed 1 1 ([Except.error "boom"] : List (Except String (List String)))).any
        isErr = true ∧
    process_video_file 1 1 ([Except.error "boom"] : List (Except String (List String))) =
      { success := false, plates := fun _ => 0, storage_adds := fun _ => 0 } :=
  ⟨by decide, C9_recognition_error_aborts 1 1 _ (by decide)⟩

/-- C5: under every configuration (timeout, frame skip, budget), every key
of the final mapping — in file mode and in stream mode — fully matches one
of the four plate grammar shapes, and a non-matching candidate such as
`AB1` can never be a key. -/
theorem C5_keys_grammar_valid (t k b : Nat) (frames : List Frame) (p : String) :
    (video_pipeline t k frames p ≠ 0 → is_valid_plate p = true) ∧
    (camera_pipeline t k b frames p ≠ 0 → is_valid_plate p = true) ∧
    is_valid_plate "AB1" = false := by
  have hin : ∀ l ∈ frames.map detect_plates_in_frame, ∀ q ∈ l, is_valid_plate q = true := by
    intro l hl q hq
    obtain ⟨f, _, rfl⟩ := List.mem_map.mp hl
    exact detect_plates_in_frame_valid f q hq
  refine ⟨?_, ?_, by decide⟩
  · intro hp
    unfold video_pipeline detect_from_video at hp
    obtain ⟨hc, hbuf⟩ := videoLoop_valid t k (frames.map detect_plates_in_frame)
      { core := initVideoState, frame_count := 0 } hin
      (by intro q hq; simp [initVideoState] at hq)
      (by intro q hq; simp [initVideoState] at hq)
    exact videoFinalize_valid _ hc hbuf p hp
  · intro hp
    unfold camera_pipeline camera_run camera_track at hp
    have hin' : ∀ l ∈ (frames.map detect_plates_in_frame).take b, ∀ q ∈ l,
        is_valid_plate q = true :=
      fun l hl => hin l (List.mem_of_mem_take hl)
    obtain ⟨hc, ha⟩ := cameraLoop_valid t k ((frames.map detect_plates_in_frame).take b)
      { core := initCameraState, frame_count := 0 } hin'
      (by intro q hq; simp [initCameraState] at hq)
      (by intro q hq; simp [initCameraState] at hq)
    exact cameraFinalize_valid _ hc ha p hp

/-- Witness for C5: a frame whose single region spells `01A123BC` followed
by an empty frame gives that plate a non-zero file-mode count, and the
theorem then yields its grammar validity. -/
theorem C5_keys_grammar_valid_witness :
    video_pipeline 1 1
        [[[⟨0, 0⟩, ⟨1, 1⟩, ⟨10, 2⟩, ⟨1, 3⟩, ⟨2, 4⟩, ⟨3, 5⟩, ⟨11, 6⟩, ⟨12, 7⟩]], []]
        "01A123BC" ≠ 0 ∧
    is_valid_plate "01A123BC" = true :=
  ⟨by decide,
    (C5_keys_grammar_valid 1 1 2
      [[[⟨0, 0⟩, ⟨1, 1⟩, ⟨10, 2⟩, ⟨1, 3⟩, ⟨2, 4⟩, ⟨3, 5⟩, ⟨11, 6⟩, ⟨12, 7⟩]], []]
      "01A123BC").1 (by decide)⟩

/-- C8 counterexample: the assembled string is NOT independent of the order
in which the capability returns the boxes — with two boxes sharing
`x1 = 5` (classes 10 = `A` and 11 = `B`), the stable sort keeps input
order, so the two orders of the same box multiset assemble to `AB` and
`BA` respectively. -/
theorem C8_order_dependence_counterexample :
    ([⟨10, 5⟩, ⟨11, 5⟩] : List CharBox).Perm [⟨11, 5⟩, ⟨10, 5⟩] ∧
    assembleRegion [⟨10, 5⟩, ⟨11, 5⟩] = "AB" ∧
    assembleRegion [⟨11, 5⟩, ⟨10, 5⟩] = "BA" ∧
    assembleRegion [⟨10, 5⟩, ⟨11, 5⟩] ≠ assembleRegion [⟨11, 5⟩, ⟨10, 5⟩] :=
  ⟨List.Perm.swap (⟨11, 5⟩ : CharBox) ⟨10, 5⟩ [], by decide, by decide, by decide⟩

/-- C8 amended: PROVIDED the boxes' `x1` coordinates are pairwise distinct,
the assembled candidate string is independent of the order in which the
capability returned the boxes (any permutation assembles identically), and
the assembly reads the boxes in ascending-`x1` order: `sortByX` yields a
permutation of the boxes sorted ascending by `x1`, through which the class
ids are mapped into the 36-symbol alphabet. -/
theorem C8_assembly_reading_order (l₁ l₂ : List CharBox) (hperm : l₁.Perm l₂)
    (hdist : l₁.Pairwise (fun a b => a.x1 ≠ b.x1)) :
    assembleRegion l₁ = assembleRegion l₂ ∧
    (sortByX l₁).Pairwise (fun a b => a.x1 ≤ b.x1) ∧
    (sortByX l₁).Perm l₁ := by
  refine ⟨?_, sortByX_sorted l₁, sortByX_perm l₁⟩
  unfold assembleRegion
  rw [sortByX_eq_of_perm l₁ l₂ hperm hdist]

/-- Witness for C8 amended: distinct coordinates 7 and 3, both orders
assemble to the same string. -/
theorem C8_assembly_reading_order_witness :
    ([⟨11, 7⟩, ⟨10, 3⟩] : List CharBox).Perm [⟨10, 3⟩, ⟨11, 7⟩] ∧
    ([⟨11, 7⟩, ⟨10, 3⟩] : List CharBox).Pairwise (fun a b => a.x1 ≠ b.x1) ∧
    assembleRegion [⟨11, 7⟩, ⟨10, 3⟩] = assembleRegion [⟨10, 3⟩, ⟨11, 7⟩] :=
  ⟨List.Perm.swap (⟨10, 3⟩ : CharBox) ⟨11, 7⟩ [], by decide,
    (C8_assembly_reading_order [⟨11, 7⟩, ⟨10, 3⟩] [⟨10, 3⟩, ⟨11, 7⟩]
      (List.Perm.swap (⟨10, 3⟩ : CharBox) ⟨11, 7⟩ []) (by decide)).1⟩

end LPRBot
